import Mathlib

/-!
# Verification of the AMPLIfy auth-service core

Shallow embedding of `stateless_microservice/auth_service/api.py` and
`stateless_microservice/auth_service/commands.py`: the durable token store,
the append-only revocation set, the volatile validation cache, the
single-writer command processor, and the hot validation path.

Modelling conventions:
* Timestamps are integers (`Int`).  The serialized timestamp strings that the
  cache stores (`datetime.isoformat` / `datetime.fromisoformat` in the source)
  are modelled by an injective encoder `isoformat : Int → String` together
  with a partial decoder `fromisoformat : String → Option Int` that fails on
  strings outside the encoder's image — exactly the properties of the real
  pair that the program relies on.
* `hashlib.sha256(...).hexdigest()` is modelled by a deterministic injective
  `sha256Hex : String → String`; only determinism of the digest is used.
* Redis structures become pure data: the `revoked_tokens` set is a list with
  set semantics, the token cache is an association list keyed by token hash,
  and the rendezvous response slots are an append-only list of
  `(response_key, value)` pairs.
* Python exceptions (`KeyError` on a missing command field, `ValueError` from
  `datetime.fromisoformat`) are modelled with `Except PyErr`.
-/

/-- Seconds per day: `INTERVAL '1 day'` in the SQL of `_extend_token` and
`timedelta(days=ttl_days)` in `_create_token`. -/
def secondsPerDay : Int := 86400

/-- Python exceptions that the embedded code can raise. -/
inductive PyErr where
  /-- Python `ValueError` raised by `datetime.fromisoformat` on a malformed string. -/
  | valueError (msg : String)
  /-- Python `KeyError` raised by `data["field"]` when the field is missing. -/
  | keyError (field : String)
deriving Repr, DecidableEq

/-- Rendering `str(e)` of a modelled exception (used for `command_failed`
details). -/
def pyErrStr : PyErr → String
  | .valueError m => m
  | .keyError f => f

/-- Model of `datetime.isoformat`: an injective rendering of a timestamp as a
string.  (A sign character followed by a unary magnitude; the concrete format
is irrelevant — the program only relies on the encoder being deterministic and
the decoder below inverting it.) -/
def isoformat : Int → String
  | .ofNat n => String.mk ('P' :: List.replicate n 'x')
  | .negSucc n => String.mk ('N' :: List.replicate n 'x')

/-- Model of `datetime.fromisoformat`: decodes exactly the image of
`isoformat` and fails (raising `ValueError` at the call site) on anything
else. -/
def fromisoformat (s : String) : Option Int :=
  match s.data with
  | 'P' :: cs => if cs.all (fun c => c = 'x') then some (Int.ofNat cs.length) else none
  | 'N' :: cs => if cs.all (fun c => c = 'x') then some (Int.negSucc cs.length) else none
  | _ => none

/-- Model of `hashlib.sha256(token.encode()).hexdigest()`: a deterministic
digest of the raw token.  Only determinism (the same raw token always hashes
to the same digest) is relevant to the claims. -/
def sha256Hex (s : String) : String := "sha256-" ++ s

/-- A row of the `tokens` table joined with its `token_scopes` rows
(the projection selected by the queries in `api.py` and mutated by the
command handlers).  `metadata` is carried as its serialized JSON blob. -/
structure TokenRow where
  token_id : String
  token_hash : String
  name : String
  created_at : Int
  expires_at : Option Int
  revoked : Bool
  revoked_at : Option Int
  scopes : List String
  metadata : String
deriving Repr, DecidableEq

/-- The field map stored under `token:<hash>` in Redis: all values are
strings, exactly as written by `hset` in the source. -/
structure CacheEntry where
  token_id : String
  name : String
  /-- comma-joined scope labels -/
  scopes : String
  /-- ISO timestamp string, or `""` for a token that never expires -/
  expires_at : String
  /-- Value `"1"` if revoked else `"0"`. -/
  revoked : String
  /-- serialized JSON blob -/
  metadata : String
deriving Repr, DecidableEq

/-- A cache slot: the entry plus the TTL (seconds) set by
`redis.expire(key, ttl)` at write time. -/
structure CacheSlot where
  entry : CacheEntry
  ttl : Int
deriving Repr, DecidableEq

/-- A value written to a rendezvous response slot by the command processor
(the JSON object passed to `setex`). -/
inductive RespValue where
  | createOk (token : String) (token_id : String) (name : String)
      (scopes : List String) (created_at : Int) (expires_at : Option Int)
  | revokeOk (token_id : String) (revoked_at : Int)
  | extendOk (token_id : String) (expires_at : Int)
  | errorResp (error : String) (detail : String)
deriving Repr, DecidableEq

/-- The whole mutable state of the service: the PostgreSQL `tokens` +
`token_scopes` tables, the Redis `token:<hash>` cache, the Redis
`revoked_tokens` set, the rendezvous response slots, and the configured
cache TTL (`settings.token_cache_ttl`). -/
structure SysState where
  store : List TokenRow
  cache : List (String × CacheSlot)
  revoked_tokens : List String
  responses : List (String × RespValue)
  cacheTtl : Int
deriving Repr, DecidableEq

/-- SQL `SELECT ... FROM tokens t ... WHERE t.token_hash = $1` (first matching
row). -/
def storeLookupByHash (store : List TokenRow) (h : String) : Option TokenRow :=
  store.find? (fun r => r.token_hash == h)

/-- SQL `... WHERE token_id = $1` (first matching row). -/
def storeLookupById (store : List TokenRow) (tid : String) : Option TokenRow :=
  store.find? (fun r => r.token_id == tid)

/-- Model of `redis.hgetall(f"token:{hash}")`: `none` models the empty (falsy) dict
returned for an absent key. -/
def cacheLookup (cache : List (String × CacheSlot)) (h : String) : Option CacheSlot :=
  (cache.find? (fun p => p.1 == h)).map (fun p => p.2)

/-- Model of `redis.hset(f"token:{hash}", mapping=...)` followed by
`redis.expire(..., ttl)`: every field of the map is written, so an existing
entry is fully replaced. -/
def cacheInsert (cache : List (String × CacheSlot)) (h : String) (slot : CacheSlot) :
    List (String × CacheSlot) :=
  cache.filter (fun p => p.1 != h) ++ [(h, slot)]

/-- Model of `redis.delete(f"token:{hash}")`. -/
def cacheDelete (cache : List (String × CacheSlot)) (h : String) :
    List (String × CacheSlot) :=
  cache.filter (fun p => p.1 != h)

/-- Model of `redis.sadd("revoked_tokens", h)`: set semantics, append-only. -/
def saddList (l : List String) (h : String) : List String :=
  if h ∈ l then l else l ++ [h]

/-- Python `",".join(scopes) if scopes else ""`. -/
def joinScopes (scopes : List String) : String :=
  String.intercalate "," scopes

/-- Model of python `str.split(",")` on the character list: split at every
comma, keeping empty pieces (`"".split(",") == [""]`). -/
def splitCommaChars : List Char → List (List Char)
  | [] => [[]]
  | c :: cs =>
    if c = ',' then [] :: splitCommaChars cs
    else
      match splitCommaChars cs with
      | [] => [[c]]
      | w :: ws => (c :: w) :: ws

/-- Python `s.split(",")`. -/
def splitComma (s : String) : List String :=
  (splitCommaChars s.data).map String.mk

/-- Python `data.get("scopes", "").split(",") if data.get("scopes") else []` followed
by `[s for s in token_scopes if s]`. -/
def parseScopes (s : String) : List String :=
  if s = "" then [] else (splitComma s).filter (fun x => x != "")

/-- The denormalized projection of a token row written to the cache — the
`mapping=` dicts in `_create_token`, `_warm_cache` and the miss path of
`validate_token` (all build exactly these fields from the row). -/
def projectRow (r : TokenRow) : CacheEntry :=
  { token_id := r.token_id
    name := r.name
    scopes := joinScopes r.scopes
    expires_at := match r.expires_at with | some t => isoformat t | none => ""
    revoked := if r.revoked then "1" else "0"
    metadata := r.metadata }

/-- The typed result of `/auth/validate` (`ValidateTokenResponse` in
`models.py`). -/
structure ValidateTokenResponse where
  valid : Bool
  scopes : List String := []
  token_id : Option String := none
  name : Option String := none
  error : Option String := none
  detail : Option String := none
deriving Repr, DecidableEq

/-- The `token_revoked` outcome. -/
def revokedResp : ValidateTokenResponse :=
  { valid := false, error := some "token_revoked", detail := some "Token has been revoked" }

/-- The `token_expired` outcome (detail interpolates the raw string). -/
def expiredResp (expiresAtStr : String) : ValidateTokenResponse :=
  { valid := false, error := some "token_expired"
    detail := some ("Token expired at " ++ expiresAtStr) }

/-- The `token_not_found` outcome. -/
def notFoundResp : ValidateTokenResponse :=
  { valid := false, error := some "token_not_found", detail := some "Invalid token" }

/-- The `insufficient_scopes` outcome, naming the missing scopes. -/
def insufficientResp (missing : List String) : ValidateTokenResponse :=
  { valid := false, error := some "insufficient_scopes"
    detail := some ("Missing scopes: " ++ toString missing) }

/-- The scope check and the `valid` outcome — the tail of
`_validate_from_data` after the revocation and expiry checks. -/
def scopeCheckResp (data : CacheEntry) (required_scopes : List String) : ValidateTokenResponse :=
  let token_scopes := parseScopes data.scopes
  if required_scopes ≠ [] then
    let missing := required_scopes.filter (fun s => !(token_scopes.contains s))
    if missing ≠ [] then
      insufficientResp missing
    else
      { valid := true, scopes := token_scopes
        token_id := some data.token_id, name := some data.name }
  else
    { valid := true, scopes := token_scopes
      token_id := some data.token_id, name := some data.name }

/-- Model of `_validate_from_data(data, required_scopes)`: validate a token from a
cached or freshly fetched projection.  `datetime.fromisoformat` on a
malformed `expires_at` string raises `ValueError`, modelled with
`Except.error`.  The expiry comparison is strict (`expires_at <
datetime.now()`), mirroring the source. -/
def validateFromData (now : Int) (data : CacheEntry) (required_scopes : List String) :
    Except PyErr ValidateTokenResponse :=
  if data.revoked = "1" then
    .ok revokedResp
  else if data.expires_at ≠ "" then
    match fromisoformat data.expires_at with
    | none => .error (.valueError data.expires_at)
    | some t =>
      if t < now then .ok (expiredResp data.expires_at)
      else .ok (scopeCheckResp data required_scopes)
  else
    .ok (scopeCheckResp data required_scopes)

/-- Model of `validate_token(request)` — the hot validation path of `api.py`.
Steps, in source order: (1) check `revoked_tokens` membership and return
`token_revoked` immediately if present; (2) on a cache hit validate from the
cached projection; (3) on a miss query the durable store by hash and return
`token_not_found` (writing nothing) if absent; (4) otherwise repopulate the
cache entry with the configured TTL and validate from the fresh projection.
The python code builds the `hset` mapping and the dict handed to
`_validate_from_data` from the same row fields (the validation dict merely
omits `metadata`, which `_validate_from_data` never reads), so both are
`projectRow row` here.  The returned pair is (response-or-exception,
post-state): a `ValueError` escaping `_validate_from_data` propagates after
any cache write already performed. -/
def validate_token (now : Int) (s : SysState) (rawToken : String)
    (required_scopes : List String) :
    Except PyErr ValidateTokenResponse × SysState :=
  let token_hash := sha256Hex rawToken
  if token_hash ∈ s.revoked_tokens then
    (.ok revokedResp, s)
  else
    match cacheLookup s.cache token_hash with
    | some slot => (validateFromData now slot.entry required_scopes, s)
    | none =>
      match storeLookupByHash s.store token_hash with
      | none => (.ok notFoundResp, s)
      | some row =>
        let s' := { s with cache := cacheInsert s.cache token_hash
                              { entry := projectRow row, ttl := s.cacheTtl } }
        (validateFromData now (projectRow row) required_scopes, s')

/-- Model of `_create_token(data)` — the CREATE_TOKEN handler.  The random secret and
the database-generated `token_id` are nondeterministic inputs, passed as
explicit oracle arguments.  `created_at` is the database `NOW()`. -/
def create_token (now : Int) (s : SysState) (secret tid : String) (name : String)
    (scopes : List String) (ttl_days : Option Int) (metadata : String) :
    RespValue × SysState :=
  let token := "amp_live_" ++ secret
  let token_hash := sha256Hex token
  let expires_at := ttl_days.map (fun d => now + d * secondsPerDay)
  let row : TokenRow :=
    { token_id := tid, token_hash := token_hash, name := name, created_at := now
      expires_at := expires_at, revoked := false, revoked_at := none
      scopes := scopes, metadata := metadata }
  let s' := { s with
      store := s.store ++ [row]
      cache := cacheInsert s.cache token_hash { entry := projectRow row, ttl := s.cacheTtl } }
  (.createOk token tid name scopes now expires_at, s')

/-- The row update of `_revoke_token`: `SET revoked = TRUE, revoked_at =
NOW()`. -/
def revokeRow (now : Int) (r : TokenRow) : TokenRow :=
  { r with revoked := true, revoked_at := some now }

/-- Model of `_revoke_token(data)` — the REVOKE_TOKEN handler, in source order:
update the row (returning `token_not_found` if no row matched, with no cache
or set write), then delete the cache entry for the row's hash, then add the
hash to the append-only `revoked_tokens` set. -/
def revoke_token (now : Int) (s : SysState) (token_id : String) :
    RespValue × SysState :=
  match storeLookupById s.store token_id with
  | none => (.errorResp "token_not_found" ("Token " ++ token_id ++ " not found"), s)
  | some r0 =>
    let s' := { s with
        store := s.store.map (fun r => if r.token_id == token_id then revokeRow now r else r)
        cache := cacheDelete s.cache r0.token_hash
        revoked_tokens := saddList s.revoked_tokens r0.token_hash }
    (.revokeOk token_id now, s')

/-- The row update of `_extend_token`: `SET expires_at = COALESCE(expires_at,
NOW()) + INTERVAL '1 day' * extend_days`.  Note `COALESCE`, not `GREATEST`:
a non-null expiry — even one in the past — is extended from itself; only a
null expiry anchors to `now`. -/
def extendRow (now extend_days : Int) (r : TokenRow) : TokenRow :=
  { r with expires_at := some (r.expires_at.getD now + extend_days * secondsPerDay) }

/-- Model of `_extend_token(data)` — the EXTEND_TOKEN handler: atomic row update
(returning `token_not_found` if no row matched), then delete the cache entry
to force a fresh read. -/
def extend_token (now : Int) (s : SysState) (token_id : String) (extend_days : Int) :
    RespValue × SysState :=
  match storeLookupById s.store token_id with
  | none => (.errorResp "token_not_found" ("Token " ++ token_id ++ " not found"), s)
  | some r0 =>
    let newExpiry := r0.expires_at.getD now + extend_days * secondsPerDay
    let s' := { s with
        store := s.store.map (fun r => if r.token_id == token_id then extendRow now extend_days r else r)
        cache := cacheDelete s.cache r0.token_hash }
    (.extendOk token_id newExpiry, s')

/-- Model of `_warm_cache()`: write one cache entry per non-revoked, non-expired row
(`WHERE t.revoked = FALSE AND (t.expires_at IS NULL OR t.expires_at >
NOW())`), each with the configured TTL. -/
def warmCache (now : Int) (s : SysState) : SysState :=
  let active := s.store.filter (fun r =>
    !r.revoked && (match r.expires_at with
                   | none => true
                   | some t => decide (now < t)))
  let cache' := active.foldl
    (fun c r => cacheInsert c r.token_hash { entry := projectRow r, ttl := s.cacheTtl }) s.cache
  { s with cache := cache' }

/-- The `data` dict of a queued command.  Fields the handlers access with
`data["k"]` raise `KeyError` when absent; fields accessed with `data.get`
fall back to a default. -/
structure CmdData where
  name : Option String := none
  scopes : Option (List String) := none
  ttl_days : Option Int := none
  metadata : Option String := none
  token_id : Option String := none
  extend_days : Option Int := none
deriving Repr, DecidableEq

/-- A queued command: `{"type": ..., "data": ..., "response_key": ...}`. -/
structure Command where
  type : String
  data : CmdData
  response_key : String
deriving Repr, DecidableEq

/-- Per-command nondeterministic context: the wall clock plus the oracles for
the random secret and the database-generated token id used by CREATE_TOKEN. -/
structure CmdCtx where
  now : Int
  secret : String
  tid : String
deriving Repr, DecidableEq

/-- The dispatch of `_process_command`'s `try` block: run the handler
matching `type` (an unrecognized type yields the `unknown_command` error
payload).  A raised `KeyError` on a missing required field surfaces as
`Except.error`; the field reads happen before any state mutation in the
source, so the pre-state is unchanged in that case. -/
def dispatchCommand (ctx : CmdCtx) (s : SysState) (cmd : Command) :
    Except PyErr (RespValue × SysState) :=
  if cmd.type = "create_token" then
    match cmd.data.name, cmd.data.scopes with
    | some nm, some sc =>
        .ok (create_token ctx.now s ctx.secret ctx.tid nm sc cmd.data.ttl_days
              (cmd.data.metadata.getD "\x7b\x7d"))
    | none, _ => .error (.keyError "name")
    | some _, none => .error (.keyError "scopes")
  else if cmd.type = "revoke_token" then
    match cmd.data.token_id with
    | some tid => .ok (revoke_token ctx.now s tid)
    | none => .error (.keyError "token_id")
  else if cmd.type = "extend_token" then
    match cmd.data.token_id, cmd.data.extend_days with
    | some tid, some d => .ok (extend_token ctx.now s tid d)
    | none, _ => .error (.keyError "token_id")
    | some _, none => .error (.keyError "extend_days")
  else
    .ok (.errorResp "unknown_command" ("Unknown command type: " ++ cmd.type), s)

/-- Model of `_process_command(command)`: dispatch, then always write exactly one
result to the command's `response_key` — the handler's payload on success, or
`{error: command_failed, detail: str(e)}` when the handler raised. -/
def processCommand (ctx : CmdCtx) (s : SysState) (cmd : Command) : SysState :=
  match dispatchCommand ctx s cmd with
  | .ok (r, s') => { s' with responses := s'.responses ++ [(cmd.response_key, r)] }
  | .error e =>
      { s with responses :=
          s.responses ++ [(cmd.response_key, .errorResp "command_failed" (pyErrStr e))] }

/-- Model of `_process_loop`: dequeue and process commands one at a time; a failing
command is answered and the loop continues with the next command. -/
def processLoop (s : SysState) (cmds : List (CmdCtx × Command)) : SysState :=
  cmds.foldl (fun st p => processCommand p.1 st p.2) s

/-- An operation of the system, with its nondeterministic inputs (wall clock,
random secret, generated id) made explicit.  `evict` models Redis expiring a
cache key when its TTL elapses (cache entries are volatile; the revocation
set has no TTL). -/
inductive Op where
  | create (now : Int) (secret tid name : String) (scopes : List String)
      (ttl_days : Option Int) (metadata : String)
  | revoke (now : Int) (token_id : String)
  | extend (now : Int) (token_id : String) (extend_days : Int)
  | validate (now : Int) (raw : String) (required_scopes : List String)
  | warm (now : Int)
  | evict (h : String)
deriving Repr, DecidableEq

/-- State transition of one operation. -/
def applyOp (s : SysState) : Op → SysState
  | .create now secret tid name scopes ttl md => (create_token now s secret tid name scopes ttl md).2
  | .revoke now tid => (revoke_token now s tid).2
  | .extend now tid d => (extend_token now s tid d).2
  | .validate now raw req => (validate_token now s raw req).2
  | .warm now => warmCache now s
  | .evict h => { s with cache := cacheDelete s.cache h }

/-- State after a sequence of operations. -/
def applyOps (s : SysState) (ops : List Op) : SysState :=
  ops.foldl applyOp s

/-- Well-formedness of a cached projection: the `expires_at` field is either
empty or a decodable timestamp string.  Every cache entry the system itself
writes has this shape (see `entryWF_projectRow`). -/
def entryWF (e : CacheEntry) : Prop :=
  e.expires_at = "" ∨ (fromisoformat e.expires_at).isSome = true

instance (e : CacheEntry) : Decidable (entryWF e) := by
  unfold entryWF; infer_instance

/-- Every cached projection in the state is well-formed. -/
def cacheWF (s : SysState) : Prop :=
  ∀ p ∈ s.cache, entryWF p.2.entry

instance (s : SysState) : Decidable (cacheWF s) := by
  unfold cacheWF; infer_instance

/-- Spec-side restatement of the §4.2 step-4 validation rules, written from
the spec's words: "if revoked is true → token_revoked; else if expires_at is
set and in the past → token_expired; else compute the set difference of
required scopes minus held scopes — if non-empty → insufficient_scopes with
the missing set named; else → valid, returning held scopes, token_id,
name". -/
def specValidationRules (now : Int) (data : CacheEntry) (required_scopes : List String) :
    ValidateTokenResponse :=
  let held := parseScopes data.scopes
  let missing := required_scopes.filter (fun s => !(held.contains s))
  if data.revoked = "1" then
    revokedResp
  else if data.expires_at ≠ "" ∧ ∃ t, fromisoformat data.expires_at = some t ∧ t < now then
    expiredResp data.expires_at
  else if missing ≠ [] then
    insufficientResp missing
  else
    { valid := true, scopes := held, token_id := some data.token_id, name := some data.name }

/-! ## Helper lemmas -/

/-- The timestamp decoder inverts the encoder. -/
theorem fromisoformat_isoformat (t : Int) : fromisoformat (isoformat t) = some t := by
  have hall : ∀ n : Nat, (List.replicate n 'x').all (fun c => c = 'x') = true := by
    intro n
    rw [List.all_eq_true]
    intro c hc
    simpa using List.eq_of_mem_replicate hc
  cases t with
  | ofNat n => simp [isoformat, fromisoformat, hall n]
  | negSucc n => simp [isoformat, fromisoformat, hall n]

/-- Encoded timestamps are never the empty string. -/
theorem isoformat_ne_empty (t : Int) : isoformat t ≠ "" := by
  intro h
  have hd := congrArg String.data h
  cases t <;> simp [isoformat] at hd

/-- Projections written by the system are well-formed. -/
theorem entryWF_projectRow (r : TokenRow) : entryWF (projectRow r) := by
  unfold entryWF projectRow
  cases hexp : r.expires_at with
  | none => left; rfl
  | some t => right; simp [fromisoformat_isoformat t]

/-- The `sadd` operation preserves existing members. -/
theorem mem_saddList_of_mem (l : List String) (h x : String) (hx : x ∈ l) :
    x ∈ saddList l h := by
  unfold saddList
  split
  · exact hx
  · exact List.mem_append_left _ hx

/-- The `sadd` operation makes its argument a member. -/
theorem mem_saddList_self (l : List String) (h : String) : h ∈ saddList l h := by
  unfold saddList
  split
  · assumption
  · exact List.mem_append_right _ (List.mem_singleton.mpr rfl)

/-- Looking a hash up right after inserting it returns the inserted slot. -/
theorem cacheLookup_cacheInsert_self (c : List (String × CacheSlot)) (h : String)
    (slot : CacheSlot) : cacheLookup (cacheInsert c h slot) h = some slot := by
  unfold cacheLookup cacheInsert
  have hnone : (c.filter (fun p => p.1 != h)).find? (fun p => p.1 == h) = none := by
    rw [List.find?_eq_none]
    intro p hp
    have := (List.mem_filter.mp hp).2
    simp only [bne_iff_ne, ne_eq, decide_eq_true_eq] at this ⊢
    simpa using this
  rw [List.find?_append, hnone]
  simp

/-- Membership after a cache insert: either an old entry or the new slot. -/
theorem mem_cacheInsert (c : List (String × CacheSlot)) (h : String) (slot : CacheSlot)
    (p : String × CacheSlot) (hp : p ∈ cacheInsert c h slot) : p ∈ c ∨ p = (h, slot) := by
  unfold cacheInsert at hp
  rcases List.mem_append.mp hp with h1 | h2
  · exact .inl (List.mem_of_mem_filter h1)
  · right; simpa using h2

/-- Deleting and evicting only shrink the cache pointwise. -/
theorem mem_cacheDelete (c : List (String × CacheSlot)) (h : String)
    (p : String × CacheSlot) (hp : p ∈ cacheDelete c h) : p ∈ c :=
  List.mem_of_mem_filter hp

/-- The `create_token` handler leaves the revocation set unchanged. -/
theorem create_token_revoked (now : Int) (s : SysState) (secret tid name : String)
    (scopes : List String) (ttl : Option Int) (md : String) :
    (create_token now s secret tid name scopes ttl md).2.revoked_tokens = s.revoked_tokens := rfl

/-- The `extend_token` handler leaves the revocation set unchanged. -/
theorem extend_token_revoked (now : Int) (s : SysState) (tid : String) (d : Int) :
    (extend_token now s tid d).2.revoked_tokens = s.revoked_tokens := by
  unfold extend_token
  cases storeLookupById s.store tid <;> rfl

/-- The `validate_token` path leaves the revocation set unchanged. -/
theorem validate_token_revoked_tokens (now : Int) (s : SysState) (raw : String)
    (req : List String) :
    (validate_token now s raw req).2.revoked_tokens = s.revoked_tokens := by
  simp only [validate_token]
  split
  · rfl
  · cases cacheLookup s.cache (sha256Hex raw) with
    | some slot => rfl
    | none => cases storeLookupByHash s.store (sha256Hex raw) <;> rfl

/-- No operation of the system removes a hash from the revocation set. -/
theorem revoked_mono (s : SysState) (op : Op) (x : String)
    (hx : x ∈ s.revoked_tokens) : x ∈ (applyOp s op).revoked_tokens := by
  cases op with
  | create now secret tid name scopes ttl md =>
      simpa [applyOp, create_token_revoked] using hx
  | revoke now tid =>
      simp only [applyOp]
      unfold revoke_token
      cases storeLookupById s.store tid with
      | none => exact hx
      | some r0 => exact mem_saddList_of_mem _ _ _ hx
  | extend now tid d => simpa [applyOp, extend_token_revoked] using hx
  | validate now raw req => simpa [applyOp, validate_token_revoked_tokens] using hx
  | warm now => exact hx
  | evict h => exact hx

/-- No sequence of operations removes a hash from the revocation set. -/
theorem revoked_applyOps_mono (s : SysState) (ops : List Op) (x : String)
    (hx : x ∈ s.revoked_tokens) : x ∈ (applyOps s ops).revoked_tokens := by
  induction ops generalizing s with
  | nil => exact hx
  | cons op rest ih => exact ih (applyOp s op) (revoked_mono s op x hx)

/-- A by-id lookup in a store updated at that id returns the updated first
match (the update function must preserve `token_id`). -/
theorem storeLookupById_update (l : List TokenRow) (tid : String) (f : TokenRow → TokenRow)
    (hf : ∀ r, (f r).token_id = r.token_id) :
    storeLookupById (l.map (fun r => if r.token_id == tid then f r else r)) tid
      = (storeLookupById l tid).map f := by
  unfold storeLookupById
  induction l with
  | nil => rfl
  | cons a l ih =>
      by_cases ha : a.token_id = tid
      · rw [List.map_cons, if_pos (by simpa using ha),
          List.find?_cons_of_pos _ (by simpa [hf a] using ha),
          List.find?_cons_of_pos _ (by simpa using ha)]
        rfl
      · rw [List.map_cons, if_neg (by simpa using ha),
          List.find?_cons_of_neg _ (by simpa using ha),
          List.find?_cons_of_neg _ (by simpa using ha)]
        exact ih

/-- On a well-formed projection, `_validate_from_data` returns a structured
outcome (it cannot raise). -/
theorem validateFromData_ok_of_WF (now : Int) (data : CacheEntry)
    (required : List String) (hWF : entryWF data) :
    ∃ r, validateFromData now data required = Except.ok r := by
  unfold validateFromData
  split
  · exact ⟨_, rfl⟩
  · split
    · rename_i hne
      rcases hWF with hempty | hsome
      · exact absurd hempty hne
      · cases hp : fromisoformat data.expires_at with
        | none => rw [hp] at hsome; simp at hsome
        | some t =>
            dsimp only
            split
            · exact ⟨_, rfl⟩
            · exact ⟨_, rfl⟩
    · exact ⟨_, rfl⟩

/-- The CREATE_TOKEN handler never writes a rendezvous response itself. -/
theorem create_token_responses (now : Int) (s : SysState) (secret tid name : String)
    (scopes : List String) (ttl : Option Int) (md : String) :
    (create_token now s secret tid name scopes ttl md).2.responses = s.responses := rfl

/-- The REVOKE_TOKEN handler never writes a rendezvous response itself. -/
theorem revoke_token_responses (now : Int) (s : SysState) (tid : String) :
    (revoke_token now s tid).2.responses = s.responses := by
  unfold revoke_token
  cases storeLookupById s.store tid <;> rfl

/-- The EXTEND_TOKEN handler never writes a rendezvous response itself. -/
theorem extend_token_responses (now : Int) (s : SysState) (tid : String) (d : Int) :
    (extend_token now s tid d).2.responses = s.responses := by
  unfold extend_token
  cases storeLookupById s.store tid <;> rfl

/-- A successful dispatch leaves the response slots untouched (the write
happens afterwards in `_process_command`). -/
theorem dispatch_ok_responses (ctx : CmdCtx) (s : SysState) (cmd : Command)
    (r : RespValue) (s2 : SysState)
    (h : dispatchCommand ctx s cmd = Except.ok (r, s2)) :
    s2.responses = s.responses := by
  unfold dispatchCommand at h
  split at h
  · cases hn : cmd.data.name with
    | none => rw [hn] at h; cases hs : cmd.data.scopes <;> rw [hs] at h <;> simp at h
    | some nm =>
        cases hs : cmd.data.scopes with
        | none => rw [hn, hs] at h; simp at h
        | some sc =>
            rw [hn, hs] at h
            simp only [Except.ok.injEq] at h
            exact (congrArg (fun p => p.2.responses) h).symm.trans
              (create_token_responses _ _ _ _ _ _ _ _)
  · split at h
    · cases ht : cmd.data.token_id with
      | none => rw [ht] at h; simp at h
      | some tid =>
          rw [ht] at h
          simp only [Except.ok.injEq] at h
          exact (congrArg (fun p => p.2.responses) h).symm.trans
            (revoke_token_responses _ _ _)
    · split at h
      · cases ht : cmd.data.token_id with
        | none => rw [ht] at h; cases hd : cmd.data.extend_days <;> rw [hd] at h <;> simp at h
        | some tid =>
            cases hd : cmd.data.extend_days with
            | none => rw [ht, hd] at h; simp at h
            | some d =>
                rw [ht, hd] at h
                simp only [Except.ok.injEq] at h
                exact (congrArg (fun p => p.2.responses) h).symm.trans
                  (extend_token_responses _ _ _ _)
      · simp only [Except.ok.injEq, Prod.mk.injEq] at h
        rw [← h.2]

/-- Processing one command appends exactly one response slot. -/
theorem processCommand_responses (ctx : CmdCtx) (s : SysState) (cmd : Command) :
    ∃ r, (processCommand ctx s cmd).responses = s.responses ++ [(cmd.response_key, r)] := by
  unfold processCommand
  cases h : dispatchCommand ctx s cmd with
  | ok pr =>
      obtain ⟨r0, s2⟩ := pr
      refine ⟨r0, ?_⟩
      dsimp only
      rw [dispatch_ok_responses ctx s cmd r0 s2 h]
  | error e => exact ⟨_, rfl⟩

/-- Processing one command grows the response list by exactly one. -/
theorem processCommand_responses_length (ctx : CmdCtx) (s : SysState) (cmd : Command) :
    (processCommand ctx s cmd).responses.length = s.responses.length + 1 := by
  obtain ⟨r, hr⟩ := processCommand_responses ctx s cmd
  rw [hr]
  simp

/-- The processing loop answers every dequeued command: one response per
command, and no failure stops the remaining commands from being processed. -/
theorem processLoop_responses_length (cmds : List (CmdCtx × Command)) :
    ∀ s : SysState, (processLoop s cmds).responses.length = s.responses.length + cmds.length := by
  induction cmds with
  | nil => intro s; rfl
  | cons p rest ih =>
      intro s
      have hstep : processLoop s (p :: rest) = processLoop (processCommand p.1 s p.2) rest := rfl
      rw [hstep, ih, processCommand_responses_length]
      simp only [List.length_cons]
      omega

/-- A successful cache lookup returns a slot stored in the cache. -/
theorem mem_of_cacheLookup (c : List (String × CacheSlot)) (h : String) (slot : CacheSlot)
    (hc : cacheLookup c h = some slot) : ∃ k, (k, slot) ∈ c := by
  unfold cacheLookup at hc
  cases hf : c.find? (fun p => p.1 == h) with
  | none => rw [hf] at hc; exact Option.noConfusion hc
  | some pr =>
      rw [hf] at hc
      have hc2 : pr.2 = slot := Option.some.inj hc
      refine ⟨pr.1, ?_⟩
      rw [← hc2]
      simpa using List.mem_of_find?_eq_some hf

/-- Inserting a system-written projection preserves cache well-formedness. -/
theorem entryWF_of_mem_insertProj (c : List (String × CacheSlot)) (h : String)
    (r : TokenRow) (ttl : Int) (hc : ∀ p ∈ c, entryWF p.2.entry) :
    ∀ p ∈ cacheInsert c h { entry := projectRow r, ttl := ttl }, entryWF p.2.entry := by
  intro p hp
  rcases mem_cacheInsert _ _ _ _ hp with h1 | h2
  · exact hc p h1
  · rw [h2]; exact entryWF_projectRow r

/-- The cache-warm fold writes only system projections, preserving cache
well-formedness. -/
theorem wf_warm_foldl (rows : List TokenRow) (ttl : Int) :
    ∀ c, (∀ p ∈ c, entryWF p.2.entry) →
      ∀ p ∈ rows.foldl (fun c r => cacheInsert c r.token_hash { entry := projectRow r, ttl := ttl }) c,
        entryWF p.2.entry := by
  induction rows with
  | nil => intro c hc; exact hc
  | cons r rest ih =>
      intro c hc
      exact ih _ (entryWF_of_mem_insertProj c r.token_hash r ttl hc)

/-- Every operation of the system writes only well-formed cache entries. -/
theorem cacheWF_applyOp (s : SysState) (hWF : cacheWF s) (op : Op) :
    cacheWF (applyOp s op) := by
  cases op with
  | create now secret tid name scopes ttl md =>
      intro p hp
      simp only [applyOp, create_token] at hp
      rcases mem_cacheInsert _ _ _ _ hp with h1 | h2
      · exact hWF p h1
      · rw [h2]; exact entryWF_projectRow _
  | revoke now tid =>
      intro p hp
      simp only [applyOp] at hp
      unfold revoke_token at hp
      cases hse : storeLookupById s.store tid with
      | none => rw [hse] at hp; exact hWF p hp
      | some r0 => rw [hse] at hp; exact hWF p (mem_cacheDelete _ _ _ hp)
  | extend now tid d =>
      intro p hp
      simp only [applyOp] at hp
      unfold extend_token at hp
      cases hse : storeLookupById s.store tid with
      | none => rw [hse] at hp; exact hWF p hp
      | some r0 => rw [hse] at hp; exact hWF p (mem_cacheDelete _ _ _ hp)
  | validate now raw req =>
      intro p hp
      simp only [applyOp, validate_token] at hp
      by_cases hrev : sha256Hex raw ∈ s.revoked_tokens
      · rw [if_pos hrev] at hp; exact hWF p hp
      · rw [if_neg hrev] at hp
        cases hcl : cacheLookup s.cache (sha256Hex raw) with
        | some slot => rw [hcl] at hp; exact hWF p hp
        | none =>
            rw [hcl] at hp
            cases hst : storeLookupByHash s.store (sha256Hex raw) with
            | none => rw [hst] at hp; exact hWF p hp
            | some row =>
                rw [hst] at hp
                rcases mem_cacheInsert _ _ _ _ hp with h1 | h2
                · exact hWF p h1
                · rw [h2]; exact entryWF_projectRow row
  | warm now =>
      intro p hp
      simp only [applyOp, warmCache] at hp
      exact wf_warm_foldl _ _ _ hWF p hp
  | evict h =>
      intro p hp
      exact hWF p (mem_cacheDelete _ _ _ hp)

/-- Characterization of `validate_token` on a cache hit for a non-revoked
hash: validate from the cached projection, no state change. -/
theorem validate_token_hit (now : Int) (s : SysState) (raw : String)
    (required : List String) (slot : CacheSlot)
    (hnr : sha256Hex raw ∉ s.revoked_tokens)
    (hhit : cacheLookup s.cache (sha256Hex raw) = some slot) :
    validate_token now s raw required = (validateFromData now slot.entry required, s) := by
  simp only [validate_token]
  rw [if_neg hnr, hhit]

/-- Characterization of `validate_token` on a cache miss with no store row:
`token_not_found`, and no write of any kind. -/
theorem validate_token_miss_none (now : Int) (s : SysState) (raw : String)
    (required : List String)
    (hnr : sha256Hex raw ∉ s.revoked_tokens)
    (hmiss : cacheLookup s.cache (sha256Hex raw) = none)
    (hnone : storeLookupByHash s.store (sha256Hex raw) = none) :
    validate_token now s raw required = (Except.ok notFoundResp, s) := by
  simp only [validate_token]
  rw [if_neg hnr, hmiss, hnone]

/-- Characterization of `validate_token` on a cache miss with a store row:
repopulate the cache with the row's projection under the configured TTL, then
validate from that projection. -/
theorem validate_token_miss_some (now : Int) (s : SysState) (raw : String)
    (required : List String) (row : TokenRow)
    (hnr : sha256Hex raw ∉ s.revoked_tokens)
    (hmiss : cacheLookup s.cache (sha256Hex raw) = none)
    (hrow : storeLookupByHash s.store (sha256Hex raw) = some row) :
    validate_token now s raw required =
      (validateFromData now (projectRow row) required,
       { s with cache := cacheInsert s.cache (sha256Hex raw)
                  { entry := projectRow row, ttl := s.cacheTtl } }) := by
  simp only [validate_token]
  rw [if_neg hnr, hmiss, hrow]

/-! ## Witness fixtures -/

/-- A live token used by the concrete witnesses. -/
def rowA : TokenRow :=
  { token_id := "t1", token_hash := sha256Hex "tokA", name := "svcA", created_at := 0
    expires_at := some 10, revoked := false, revoked_at := none
    scopes := ["read"], metadata := "" }

/-- A small base state: one live token, empty cache, nothing revoked. -/
def st0 : SysState :=
  { store := [rowA], cache := [], revoked_tokens := [], responses := [], cacheTtl := 1800 }

/-- An already-revoked token. -/
def rowR : TokenRow :=
  { token_id := "t2", token_hash := sha256Hex "tokR", name := "svcR", created_at := 0
    expires_at := none, revoked := true, revoked_at := some 5
    scopes := [], metadata := "" }

/-- A state whose only token is already revoked (flag set, hash in the
revocation set). -/
def stR : SysState :=
  { store := [rowR], cache := [], revoked_tokens := [sha256Hex "tokR"]
    responses := [], cacheTtl := 1800 }

/-! ## Claims -/

/-- C3: the revocation set is append-only — no operation of the system
(create, revoke, extend, validate, cache warm, cache eviction) ever removes a
member, so once a token hash is in the set it stays in it across every
subsequent state. -/
theorem spec_C3_revoked_append_only (s : SysState) (h : String)
    (hmem : h ∈ s.revoked_tokens) (ops : List Op) :
    h ∈ (applyOps s ops).revoked_tokens :=
  revoked_applyOps_mono s ops h hmem

theorem spec_C3_witness :
    sha256Hex "tokR" ∈
      (applyOps stR [Op.warm 4, Op.validate 6 "tokR" [], Op.evict (sha256Hex "tokR"),
        Op.create 7 "sec" "t9" "svc9" [] none "", Op.extend 8 "t2" 3]).revoked_tokens :=
  spec_C3_revoked_append_only stR (sha256Hex "tokR") (by decide) _

/-- C1: once a token's hash has been added to the revocation set by a
successful REVOKE_TOKEN, every subsequent ValidateToken on that raw token —
after any further sequence of operations, hence regardless of the cache
state — returns the `token_revoked` outcome and never a valid outcome,
because the revocation-set membership check comes before any cache or store
lookup. -/
theorem spec_C1_revocation_precedence (now0 : Int) (s : SysState) (tid raw : String)
    (row : TokenRow)
    (hfound : storeLookupById s.store tid = some row)
    (hhash : sha256Hex raw = row.token_hash)
    (ops : List Op) (now : Int) (required : List String) :
    (validate_token now (applyOps (revoke_token now0 s tid).2 ops) raw required).1 =
      Except.ok revokedResp
    ∧ ∀ r, (validate_token now (applyOps (revoke_token now0 s tid).2 ops) raw required).1 =
        Except.ok r → r.valid = false := by
  have h1 : row.token_hash ∈ (revoke_token now0 s tid).2.revoked_tokens := by
    unfold revoke_token
    rw [hfound]
    exact mem_saddList_self _ _
  have h2 : sha256Hex raw ∈ (applyOps (revoke_token now0 s tid).2 ops).revoked_tokens := by
    rw [hhash]
    exact revoked_applyOps_mono _ ops _ h1
  have hmain : (validate_token now (applyOps (revoke_token now0 s tid).2 ops) raw required).1 =
      Except.ok revokedResp := by
    simp only [validate_token]
    rw [if_pos h2]
  refine ⟨hmain, fun r hr => ?_⟩
  rw [hmain] at hr
  have := Except.ok.inj hr
  exact this ▸ rfl

theorem spec_C1_witness :
    (validate_token 6 (applyOps (revoke_token 3 st0 "t1").2 [Op.warm 4]) "tokA" []).1 =
      Except.ok revokedResp :=
  (spec_C1_revocation_precedence 3 st0 "t1" "tokA" rowA (by decide) (by decide)
    [Op.warm 4] 6 []).1

/-- C2 counterexample: extending a token whose non-null expiry (10) is far in
the past at `now = 200000` yields `10 + 1·day = 86410` — the SQL uses
`COALESCE(expires_at, NOW())`, not `max(expires_at, now)` — which differs
from the claimed `max(10, 200000) + 1·day` and violates the claimed bound
`expires_at ≥ now + extend_days`. -/
theorem spec_C2_counterexample :
    (extend_token 200000 st0 "t1" 1).1 = RespValue.extendOk "t1" 86410
    ∧ (86410 : Int) ≠ max 10 200000 + 1 * secondsPerDay
    ∧ ¬ (200000 + 1 * secondsPerDay ≤ (86410 : Int)) := by decide

/-- C2 (amended): EXTEND_TOKEN computes the new expiration as
`COALESCE(current_expires_at, now) + extend_days` days inside the store: a
token with a null expiry anchors to `now`, while a token with a non-null
expiry — even one already in the past — is extended from that stale expiry,
so the result always satisfies `expires_at = old_expires_at + extend_days`
when the old expiry was set, and `expires_at = now + extend_days` only when
it was null. -/
theorem spec_C2_extend_coalesce (now : Int) (s : SysState) (tid : String) (d : Int)
    (row : TokenRow) (hfound : storeLookupById s.store tid = some row) :
    (extend_token now s tid d).1 =
      RespValue.extendOk tid (row.expires_at.getD now + d * secondsPerDay)
    ∧ (row.expires_at = none →
        (extend_token now s tid d).1 = RespValue.extendOk tid (now + d * secondsPerDay))
    ∧ (∀ t, row.expires_at = some t →
        (extend_token now s tid d).1 = RespValue.extendOk tid (t + d * secondsPerDay))
    ∧ storeLookupById (extend_token now s tid d).2.store tid =
        some (extendRow now d row) := by
  have hmain : (extend_token now s tid d).1 =
      RespValue.extendOk tid (row.expires_at.getD now + d * secondsPerDay) := by
    unfold extend_token
    rw [hfound]
  refine ⟨hmain, ?_, ?_, ?_⟩
  · intro hnone; rw [hmain, hnone]; rfl
  · intro t ht; rw [hmain, ht]; rfl
  · unfold extend_token
    rw [hfound]
    dsimp only
    rw [storeLookupById_update s.store tid (extendRow now d) (fun r => rfl), hfound]
    rfl

theorem spec_C2_witness :
    (extend_token 200000 st0 "t1" 1).1 =
      RespValue.extendOk "t1" (rowA.expires_at.getD 200000 + 1 * secondsPerDay) :=
  (spec_C2_extend_coalesce 200000 st0 "t1" 1 rowA (by decide)).1

/-- C7 counterexample: revoking the already-revoked token `t2` (revoked at
time 5) at time 10 succeeds, but is not a no-op on the token's state — the
SQL unconditionally sets `revoked_at = NOW()`, so `revoked_at` moves from 5
to 10. -/
theorem spec_C7_counterexample :
    (revoke_token 10 stR "t2").1 = RespValue.revokeOk "t2" 10
    ∧ (revoke_token 10 stR "t2").2.store ≠ stR.store
    ∧ (revoke_token 10 stR "t2").2.store = [{ rowR with revoked_at := some 10 }] := by decide

/-- C7 (amended): REVOKE_TOKEN on an already-revoked token still succeeds
(row found, success result with the token's identity returned); the repeated
update leaves the `revoked` flag and every other field unchanged and is a
no-op on the revocation set when the hash is already present — except that
`revoked_at` is refreshed to the current time. -/
theorem spec_C7_revoke_idempotent (now : Int) (s : SysState) (tid : String)
    (row : TokenRow)
    (hfound : storeLookupById s.store tid = some row) (hrev : row.revoked = true) :
    (revoke_token now s tid).1 = RespValue.revokeOk tid now
    ∧ storeLookupById (revoke_token now s tid).2.store tid =
        some { row with revoked_at := some now }
    ∧ (row.token_hash ∈ s.revoked_tokens →
        (revoke_token now s tid).2.revoked_tokens = s.revoked_tokens) := by
  refine ⟨?_, ?_, ?_⟩
  · unfold revoke_token
    rw [hfound]
  · unfold revoke_token
    rw [hfound]
    dsimp only
    rw [storeLookupById_update s.store tid (revokeRow now) (fun r => rfl), hfound]
    unfold revokeRow
    cases row
    simp_all
  · intro hmem
    unfold revoke_token
    rw [hfound]
    dsimp only
    unfold saddList
    rw [if_pos hmem]

theorem spec_C7_witness :
    (revoke_token 10 stR "t2").1 = RespValue.revokeOk "t2" 10
    ∧ storeLookupById (revoke_token 10 stR "t2").2.store "t2" =
        some { rowR with revoked_at := some 10 } :=
  ⟨(spec_C7_revoke_idempotent 10 stR "t2" rowR (by decide) (by decide)).1,
   (spec_C7_revoke_idempotent 10 stR "t2" rowR (by decide) (by decide)).2.1⟩

/-- C5: on a validation cache miss for a non-revoked hash, ValidateToken
reads the token by hash from the durable store; if no row exists it returns
`token_not_found` and writes nothing (the state is unchanged), and if a row
exists it repopulates the cache entry for that hash — projected from the
freshly read row, with the configured bounded TTL — before validating from
that projection. -/
theorem spec_C5_cache_miss_path (now : Int) (s : SysState) (raw : String)
    (required : List String)
    (hnr : sha256Hex raw ∉ s.revoked_tokens)
    (hmiss : cacheLookup s.cache (sha256Hex raw) = none) :
    (storeLookupByHash s.store (sha256Hex raw) = none →
      validate_token now s raw required = (Except.ok notFoundResp, s))
    ∧ (∀ row, storeLookupByHash s.store (sha256Hex raw) = some row →
        validate_token now s raw required =
          (validateFromData now (projectRow row) required,
           { s with cache := cacheInsert s.cache (sha256Hex raw)
                      { entry := projectRow row, ttl := s.cacheTtl } })) :=
  ⟨fun hnone => validate_token_miss_none now s raw required hnr hmiss hnone,
   fun row hrow => validate_token_miss_some now s raw required row hnr hmiss hrow⟩

theorem spec_C5_witness :
    validate_token 5 st0 "missing" [] = (Except.ok notFoundResp, st0) :=
  (spec_C5_cache_miss_path 5 st0 "missing" [] (by decide) (by decide)).1 (by decide)

/-- C6: validating from the cache entry written by the miss-triggered
repopulation yields the same outcome as the store-backed validation that
wrote it — for an unchanged token, an immediate second ValidateToken with the
same required scopes hits the cache and returns an identical result. -/
theorem spec_C6_repopulation_roundtrip (now : Int) (s : SysState) (raw : String)
    (required : List String) (row : TokenRow)
    (hnr : sha256Hex raw ∉ s.revoked_tokens)
    (hmiss : cacheLookup s.cache (sha256Hex raw) = none)
    (hrow : storeLookupByHash s.store (sha256Hex raw) = some row) :
    (validate_token now (validate_token now s raw required).2 raw required).1 =
      (validate_token now s raw required).1
    ∧ (cacheLookup (validate_token now s raw required).2.cache (sha256Hex raw)).isSome
        = true := by
  have hfirst := validate_token_miss_some now s raw required row hnr hmiss hrow
  have hhit : cacheLookup (validate_token now s raw required).2.cache (sha256Hex raw) =
      some { entry := projectRow row, ttl := s.cacheTtl } := by
    rw [hfirst]
    exact cacheLookup_cacheInsert_self _ _ _
  have hnr2 : sha256Hex raw ∉ (validate_token now s raw required).2.revoked_tokens := by
    rw [validate_token_revoked_tokens]
    exact hnr
  constructor
  · rw [validate_token_hit now (validate_token now s raw required).2 raw required
        { entry := projectRow row, ttl := s.cacheTtl } hnr2 hhit, hfirst]
  · rw [hhit]
    rfl

theorem spec_C6_witness :
    (validate_token 5 (validate_token 5 st0 "tokA" ["read"]).2 "tokA" ["read"]).1 =
      (validate_token 5 st0 "tokA" ["read"]).1 :=
  (spec_C6_repopulation_roundtrip 5 st0 "tokA" ["read"] rowA
    (by decide) (by decide) (by decide)).1

/-- C8: for every dequeued command, exactly one result is written to the
command's `response_key` — the handler's payload on success, a
`{error: command_failed, detail}` object when the handler raises, and the
`unknown_command` error object for an unrecognized type — and processing a
whole queue answers every command (a failing command never stops the
loop). -/
theorem spec_C8_always_one_response (ctx : CmdCtx) (s : SysState) (cmd : Command) :
    (∃ r, (processCommand ctx s cmd).responses = s.responses ++ [(cmd.response_key, r)])
    ∧ (cmd.type ≠ "create_token" → cmd.type ≠ "revoke_token" → cmd.type ≠ "extend_token" →
        (processCommand ctx s cmd).responses = s.responses ++
          [(cmd.response_key,
            RespValue.errorResp "unknown_command" ("Unknown command type: " ++ cmd.type))])
    ∧ (∀ e, dispatchCommand ctx s cmd = Except.error e →
        (processCommand ctx s cmd).responses = s.responses ++
          [(cmd.response_key, RespValue.errorResp "command_failed" (pyErrStr e))])
    ∧ (∀ r s2, dispatchCommand ctx s cmd = Except.ok (r, s2) →
        (processCommand ctx s cmd).responses = s.responses ++ [(cmd.response_key, r)])
    ∧ (∀ cmds : List (CmdCtx × Command),
        (processLoop s cmds).responses.length = s.responses.length + cmds.length) := by
  refine ⟨processCommand_responses ctx s cmd, ?_, ?_, ?_,
    fun cmds => processLoop_responses_length cmds s⟩
  · intro h1 h2 h3
    have hdisp : dispatchCommand ctx s cmd =
        Except.ok (.errorResp "unknown_command" ("Unknown command type: " ++ cmd.type), s) := by
      unfold dispatchCommand
      rw [if_neg h1, if_neg h2, if_neg h3]
    unfold processCommand
    rw [hdisp]
  · intro e he
    unfold processCommand
    rw [he]
  · intro r s2 hok
    unfold processCommand
    rw [hok]
    dsimp only
    rw [dispatch_ok_responses ctx s cmd r s2 hok]

deriving instance DecidableEq for Except

/-- A cached projection with an arbitrary (malformed) `expires_at` string. -/
def badEntry : CacheEntry :=
  { token_id := "t9", name := "svc9", scopes := "", expires_at := "garbage"
    revoked := "0", metadata := "" }

/-- A state whose cache holds the malformed projection for token `tokB`. -/
def stBad : SysState :=
  { store := [], cache := [(sha256Hex "tokB", { entry := badEntry, ttl := 1800 })]
    revoked_tokens := [], responses := [], cacheTtl := 1800 }

/-- C9 counterexample: with an arbitrary field value in a cached projection —
`expires_at = "garbage"` — ValidateToken does not return a structured
outcome: `datetime.fromisoformat` raises `ValueError`, which propagates out
of the validation path. -/
theorem spec_C9_counterexample :
    (validate_token 0 stBad "tokB" []).1 = Except.error (PyErr.valueError "garbage") := by
  decide

/-- C9 (amended): the validation path never raises on any state whose cached
projections are well-formed (an `expires_at` field that is empty or a
decodable timestamp) — which covers every cache entry the system itself
writes, since every operation preserves cache well-formedness; only a
projection corrupted from outside the system (e.g. a malformed `expires_at`
string) makes the timestamp parse raise. -/
theorem spec_C9_never_raises_wf (now : Int) (s : SysState) (raw : String)
    (required : List String) (hWF : cacheWF s) :
    (∃ r, (validate_token now s raw required).1 = Except.ok r)
    ∧ ∀ op, cacheWF (applyOp s op) := by
  refine ⟨?_, fun op => cacheWF_applyOp s hWF op⟩
  by_cases hrev : sha256Hex raw ∈ s.revoked_tokens
  · refine ⟨revokedResp, ?_⟩
    simp only [validate_token]
    rw [if_pos hrev]
  · cases hcl : cacheLookup s.cache (sha256Hex raw) with
    | some slot =>
        obtain ⟨k, hk⟩ := mem_of_cacheLookup _ _ _ hcl
        obtain ⟨r, hr⟩ := validateFromData_ok_of_WF now slot.entry required (hWF (k, slot) hk)
        refine ⟨r, ?_⟩
        rw [validate_token_hit now s raw required slot hrev hcl]
        exact hr
    | none =>
        cases hst : storeLookupByHash s.store (sha256Hex raw) with
        | none =>
            refine ⟨notFoundResp, ?_⟩
            rw [validate_token_miss_none now s raw required hrev hcl hst]
        | some row =>
            obtain ⟨r, hr⟩ := validateFromData_ok_of_WF now (projectRow row) required
              (entryWF_projectRow row)
            refine ⟨r, ?_⟩
            rw [validate_token_miss_some now s raw required row hrev hcl hst]
            exact hr

theorem spec_C9_witness :
    cacheWF st0 ∧ ∃ r, (validate_token 5 st0 "tokA" []).1 = Except.ok r :=
  ⟨by decide, (spec_C9_never_raises_wf 5 st0 "tokA" [] (by decide)).1⟩

/-- A live token whose single scope label contains a comma. -/
def rowC : TokenRow :=
  { token_id := "t3", token_hash := sha256Hex "tokC", name := "svcC", created_at := 0
    expires_at := none, revoked := false, revoked_at := none
    scopes := ["a,b"], metadata := "" }

/-- State holding the comma-scoped token. -/
def stC : SysState :=
  { store := [rowC], cache := [], revoked_tokens := [], responses := [], cacheTtl := 1800 }

/-- C10 counterexample: the stored token holds the single scope `"a,b"`, is
not revoked and not expired, and `ValidateToken(raw, [])` does return valid —
but with scopes `["a", "b"]` (the comma-joined projection re-split), not the
token's held scopes `["a,b"]`. -/
theorem spec_C10_counterexample :
    (validate_token 0 stC "tokC" []).1 =
      Except.ok { valid := true, scopes := ["a", "b"]
                  token_id := some "t3", name := some "svcC" }
    ∧ rowC.scopes = ["a,b"]
    ∧ (["a", "b"] : List String) ≠ ["a,b"] := by decide

/-- C10 (amended): with an empty required-scope list ValidateToken performs
no scope check at all — for every stored token that is not revoked and not
expired, `ValidateToken(raw, [])` returns valid with the scopes as decoded
from the comma-joined projection (which may differ from the stored scope
list when a label is empty or contains a comma), the token_id and the name;
in particular a token with no scopes validates with the empty scope list. -/
theorem spec_C10_empty_required (now : Int) (s : SysState) (raw : String) (row : TokenRow)
    (hnr : sha256Hex raw ∉ s.revoked_tokens)
    (hmiss : cacheLookup s.cache (sha256Hex raw) = none)
    (hrow : storeLookupByHash s.store (sha256Hex raw) = some row)
    (hnotrev : row.revoked = false)
    (hnotexp : ∀ t, row.expires_at = some t → ¬ t < now) :
    (validate_token now s raw []).1 =
      Except.ok { valid := true, scopes := parseScopes (joinScopes row.scopes)
                  token_id := some row.token_id, name := some row.name }
    ∧ (row.scopes = [] → parseScopes (joinScopes row.scopes) = []) := by
  constructor
  · rw [validate_token_miss_some now s raw [] row hnr hmiss hrow]
    show validateFromData now (projectRow row) [] = _
    unfold validateFromData
    rw [if_neg (by simp [projectRow, hnotrev])]
    cases hexp : row.expires_at with
    | none =>
        have hempty : (projectRow row).expires_at = "" := by simp [projectRow, hexp]
        rw [if_neg (by simp [hempty])]
        simp [scopeCheckResp, projectRow]
    | some t =>
        have hiso : (projectRow row).expires_at = isoformat t := by simp [projectRow, hexp]
        rw [if_pos (by rw [hiso]; exact isoformat_ne_empty t), hiso, fromisoformat_isoformat]
        dsimp only
        rw [if_neg (hnotexp t hexp)]
        simp [scopeCheckResp, projectRow]
  · intro h0
    rw [h0]
    rfl

theorem spec_C10_witness :
    (validate_token 5 st0 "tokA" []).1 =
      Except.ok { valid := true, scopes := parseScopes (joinScopes rowA.scopes)
                  token_id := some rowA.token_id, name := some rowA.name } :=
  (spec_C10_empty_required 5 st0 "tokA" rowA (by decide) (by decide) (by decide) (by decide)
    (by intro t ht; simp [rowA] at ht; omega)).1

/-- The code-side scope-check tail (guarded by `if required_scopes:`) equals
the spec-side single missing-set test: with an empty required list the
missing set is empty, so both give the valid outcome. -/
theorem scopeCheckResp_eq_spec (data : CacheEntry) (required : List String) :
    scopeCheckResp data required =
      (if required.filter (fun s => !((parseScopes data.scopes).contains s)) ≠ [] then
        insufficientResp (required.filter (fun s => !((parseScopes data.scopes).contains s)))
      else
        { valid := true, scopes := parseScopes data.scopes
          token_id := some data.token_id, name := some data.name }) := by
  unfold scopeCheckResp
  by_cases hreq : required = []
  · subst hreq
    simp
  · rw [if_pos hreq]

/-- C4: on every well-formed projection (cached or freshly read) the
validation rules apply in the fixed precedence the spec states — revoked,
then expired (strictly in the past), then the set difference of required
minus held scopes naming exactly the missing ones, then valid carrying the
held scopes, token_id and name; `specValidationRules` is that cascade
written from the spec's words. -/
theorem spec_C4_validation_precedence (now : Int) (data : CacheEntry)
    (required : List String) (hWF : entryWF data) :
    validateFromData now data required = Except.ok (specValidationRules now data required) := by
  unfold validateFromData specValidationRules
  dsimp only
  by_cases hrev : data.revoked = "1"
  · rw [if_pos hrev, if_pos hrev]
  · rw [if_neg hrev, if_neg hrev]
    by_cases hexp : data.expires_at ≠ ""
    · rcases hWF with hempty | hsome
      · exact absurd hempty hexp
      · obtain ⟨t, ht⟩ := Option.isSome_iff_exists.mp hsome
        rw [if_pos hexp, ht]
        dsimp only
        by_cases hlt : t < now
        · rw [if_pos hlt, if_pos ⟨hexp, t, rfl, hlt⟩]
        · have hnc : ¬ (data.expires_at ≠ "" ∧
              ∃ u, (some t : Option Int) = some u ∧ u < now) := by
            rintro ⟨-, u, hu, hult⟩
            injection hu with h
            exact hlt (by omega)
          rw [if_neg hlt, if_neg hnc]
          exact congrArg Except.ok (scopeCheckResp_eq_spec data required)
    · have hnc : ¬ (data.expires_at ≠ "" ∧
          ∃ u, fromisoformat data.expires_at = some u ∧ u < now) :=
        fun hc => hexp hc.1
      rw [if_neg hexp, if_neg hnc]
      exact congrArg Except.ok (scopeCheckResp_eq_spec data required)

theorem spec_C4_witness :
    entryWF (projectRow rowA)
    ∧ validateFromData 5 (projectRow rowA) ["write", "read"] =
        Except.ok (specValidationRules 5 (projectRow rowA) ["write", "read"]) :=
  ⟨by decide, spec_C4_validation_precedence 5 (projectRow rowA) ["write", "read"] (by decide)⟩
